import Mathlib

/-
Verification of the property/schema-adaptive record upsert and
relation-resolution engine of src/server.js.

The JavaScript source is shallowly embedded: JS runtime values that flow
through the builder are modelled by the inductive `JSVal`, the Notion
property schema by `PropDef`, and every remote interaction by explicit
oracle parameters plus a trace of `RemoteCall`s, so that the pure Lean
functions mirror the control flow of the source line by line.
-/

namespace Sol

/-- JS string primitives used by the source, implemented on the
character list so that concrete instances reduce inside the kernel.
`lowerStr` is `.toLowerCase()` (ASCII, which is all the source compares),
`trimStr` is `.trim()`, `stripDashes` removes every dash (the replace with the global dash regex),
`splitChar` is `.split(sep)` for the single-character separators the
source uses, and the rest are the obvious length/take/drop/empty tests. -/
def lowerStr (s : String) : String := ⟨s.data.map Char.toLower⟩

def isWsChar (c : Char) : Bool := c == ' ' || c == '\t' || c == '\n' || c == '\r'

def trimStr (s : String) : String :=
  ⟨((s.data.dropWhile isWsChar).reverse.dropWhile isWsChar).reverse⟩

def stripDashes (s : String) : String := ⟨s.data.filter (fun c => !(c == '-'))⟩

def takeStr (s : String) (n : Nat) : String := ⟨s.data.take n⟩

def dropStr (s : String) (n : Nat) : String := ⟨s.data.drop n⟩

def lengthStr (s : String) : Nat := s.data.length

def emptyStr (s : String) : Bool := s.data.isEmpty

def strContains (s : String) (c : Char) : Bool := s.data.contains c

def allChars (s : String) (p : Char → Bool) : Bool := s.data.all p

def splitCharAux (sep : Char) : List Char → List Char → List String
  | [], acc => [⟨acc.reverse⟩]
  | c :: cs, acc =>
    if c == sep then (⟨acc.reverse⟩ : String) :: splitCharAux sep cs []
    else splitCharAux sep cs (c :: acc)

def splitChar (sep : Char) (s : String) : List String := splitCharAux sep s.data []

def joinStrs (l : List String) : String := l.foldl (fun a b => a ++ b) ""

/-- JS runtime values as handled by the upsert engine (strings, numbers,
booleans, null/undefined, arrays, plain objects). `null` stands for both
`null` and `undefined`, which the source only ever distinguishes by
truthiness. -/
inductive JSVal where
  | str (s : String)
  | num (n : Int)
  | boolean (b : Bool)
  | null
  | arr (xs : List JSVal)
  | obj (kvs : List (String × JSVal))

/-- JS truthiness (`!value` in the source is `!truthy`). -/
def JSVal.truthy : JSVal → Bool
  | .str s => !emptyStr s
  | .num n => n != 0
  | .boolean b => b
  | .null => false
  | .arr _ => true
  | .obj _ => true

mutual
/-- JS `String(value)` conversion as used by the builder. -/
def jsString : JSVal → String
  | .str s => s
  | .num n => toString n
  | .boolean b => if b then "true" else "false"
  | .null => "null"
  | .arr xs => String.intercalate "," (jsStringElems xs)
  | .obj _ => "[object Object]"

/-- Array elements under `Array.prototype.toString`: null/undefined render
as the empty string. -/
def jsStringElems : List JSVal → List String
  | [] => []
  | .null :: xs => "" :: jsStringElems xs
  | x :: xs => jsString x :: jsStringElems xs
end

/-- JS property access `v.k` on a value: only objects yield fields. -/
def jsField : JSVal → String → Option JSVal
  | .obj kvs, k => kvs.lookup k
  | _, _ => none

/-- Truthiness of an optional field (`v.k` where missing is undefined). -/
def truthyOpt : Option JSVal → Bool
  | some v => v.truthy
  | none => false

/-- `normId` from the source: strip dashes, lowercase. -/
def normId (s : String) : String :=
  lowerStr (stripDashes s)

/-- Hexadecimal digit test used by the uuid regexes of the source. -/
def isHexChar (c : Char) : Bool :=
  c.isDigit || (decide ('a' ≤ c) && decide (c ≤ 'f')) || (decide ('A' ≤ c) && decide (c ≤ 'F'))

/-- `toDashedUuid` from the source: a 32-hex-digit string (dashes ignored)
is rewritten to dashed 8-4-4-4-12 form, anything else is returned as-is. -/
def toDashedUuid (s : String) : String :=
  let raw := stripDashes s
  if lengthStr raw == 32 && allChars raw isHexChar then
    takeStr raw 8 ++ "-" ++ takeStr (dropStr raw 8) 4 ++ "-" ++ takeStr (dropStr raw 12) 4 ++ "-"
      ++ takeStr (dropStr raw 16) 4 ++ "-" ++ dropStr raw 20
  else s

/-- The `uuidRe` test of the source: dashed 8-4-4-4-12 hexadecimal form. -/
def isUuidStr (s : String) : Bool :=
  match splitChar '-' s with
  | [a, b, c, d, e] =>
    lengthStr a == 8 && lengthStr b == 4 && lengthStr c == 4 && lengthStr d == 4
      && lengthStr e == 12 && allChars (a ++ b ++ c ++ d ++ e) isHexChar
  | _ => false

/-- `inferNameFromUrl` from the files case of `buildProp`: last non-empty
path segment before the query string, defaulting to "file", truncated to
100 characters. -/
def inferNameFromUrl (u : String) : String :=
  let withoutQuery := (splitChar '?' u).headD ""
  let segs := (splitChar '/' withoutQuery).filter (fun s => !emptyStr s)
  let seg := segs.getLast?.getD "file"
  if lengthStr seg > 100 then takeStr seg 100 else seg

/-- One property descriptor of the fetched database schema: its `type`
string and, for select/multi_select/status kinds, the option names under
`def.<kind>.options`, and for relation kinds `def.relation.database_id`
(empty string when absent, matching JS falsiness). -/
structure PropDef where
  type : String
  options : List String := []
  relationDatabaseId : String := ""

/-- The typed Notion property payloads produced by `buildProp`
(`built.value` in the source). -/
inductive Payload where
  | titleVal (content : String)
  | richTextVal (content : String)
  | selectVal (name : String)
  | multiSelectVal (names : List JSVal)
  | statusVal (name : String)
  | dateVal (start stop timeZone : Option JSVal)
  | numberVal (n : Int)
  | checkboxVal (b : Bool)
  | urlVal (u : String)
  | peopleVal (ids : List String)
  | filesVal (entries : List (JSVal × JSVal))
  | relationVal (ids : List String)

/-- Outcome of `buildProp`: an applied payload, a structured skip
(`{skip:true, reason, available?, type?}`), or a hard error. -/
inductive BuildResult where
  | value (p : Payload)
  | skip (reason : String) (available : List String) (ty : Option String)
  | error (e : String)

/-- The lazily built people directory (`__solUsersIndex.byEmail`):
lowercased email to user id. -/
structure UsersIndex where
  byEmail : List (String × String)

/-- Shallow embedding of `buildProp` (src/server.js lines 1469-1581):
dispatch on the schema descriptor's type string. -/
def buildProp (props : List (String × PropDef)) (idx : UsersIndex)
    (propName : String) (value : JSVal) : BuildResult :=
  match props.lookup propName with
  | none => .skip "unknown_property" [] none
  | some pd =>
    match pd.type with
    | "title" =>
      if !value.truthy then .error "title_required"
      else .value (.titleVal (jsString value))
    | "rich_text" => .value (.richTextVal (jsString value))
    | "select" =>
      let options := pd.options
      let name := jsString value
      let has := options.any (fun o => lowerStr o == lowerStr name)
      if !has then .skip "unknown_option" options none
      else .value (.selectVal name)
    | "multi_select" =>
      let options := pd.options
      let arr := match value with | .arr xs => xs | v => [v]
      let valid := arr.filter (fun v => options.any (fun o => lowerStr o == lowerStr (jsString v)))
      if valid.isEmpty then .skip "unknown_option" options none
      else .value (.multiSelectVal valid)
    | "status" =>
      let options := pd.options
      let name := jsString value
      let has := options.any (fun o => lowerStr o == lowerStr name)
      if !has then .skip "unknown_option" options none
      else .value (.statusVal name)
    | "date" =>
      match value with
      | .str s => .value (.dateVal (some (.str s)) none none)
      | v =>
        if v.truthy && (truthyOpt (jsField v "start") || truthyOpt (jsField v "end")) then
          .value (.dateVal (jsField v "start") (jsField v "end") (jsField v "time_zone"))
        else .skip "invalid_date" [] none
    | "number" =>
      match value with
      | .num n => .value (.numberVal n)
      | _ => .skip "invalid_number" [] none
    | "checkbox" => .value (.checkboxVal value.truthy)
    | "url" => .value (.urlVal (jsString value))
    | "people" =>
      let vals := match value with | .arr xs => xs | v => [v]
      let people := vals.foldl (fun acc v =>
        if !v.truthy then acc
        else match v with
          | .str s =>
            let t := trimStr s
            if strContains t '@' then
              match idx.byEmail.lookup (lowerStr t) with
              | some uid => acc ++ [uid]
              | none => acc
            else acc ++ [t]
          | v =>
            match jsField v "id" with
            | some idv => if idv.truthy then acc ++ [jsString idv] else acc
            | none => acc) []
      if people.isEmpty then .skip "unknown_people" [] none
      else .value (.peopleVal people)
    | "files" =>
      let vals := match value with | .arr xs => xs | v => [v]
      let files := vals.foldl (fun acc v =>
        if !v.truthy then acc
        else match v with
          | .str s =>
            let urlStr := trimStr s
            acc ++ [(JSVal.str (inferNameFromUrl urlStr), JSVal.str urlStr)]
          | v =>
            let extUrl := (jsField v "external").bind (fun e => jsField e "url")
            if truthyOpt extUrl then
              let uv := extUrl.getD JSVal.null
              let nameV := if truthyOpt (jsField v "name") then (jsField v "name").getD JSVal.null
                           else JSVal.str (inferNameFromUrl (jsString uv))
              acc ++ [(nameV, uv)]
            else if truthyOpt (jsField v "url") then
              let uv := (jsField v "url").getD JSVal.null
              let nameV := if truthyOpt (jsField v "name") then (jsField v "name").getD JSVal.null
                           else JSVal.str (inferNameFromUrl (jsString uv))
              acc ++ [(nameV, uv)]
            else if truthyOpt (jsField v "name") && truthyOpt (jsField v "href") then
              acc ++ [(JSVal.str (jsString ((jsField v "name").getD JSVal.null)),
                       JSVal.str (jsString ((jsField v "href").getD JSVal.null)))]
            else acc) []
      if files.isEmpty then .skip "invalid_files" [] none
      else .value (.filesVal files)
    | "relation" =>
      let ids := match value with | .arr xs => xs | v => [v]
      let strs := ids.filterMap (fun v =>
        match v with
        | .str s => some (trimStr s)
        | v =>
          match jsField v "id" with
          | some idv => if idv.truthy then some (jsString idv) else none
          | none => none)
      let rel := (strs.filter (fun s => !emptyStr s)).map toDashedUuid
      if rel.isEmpty then .skip "invalid_relation" [] none
      else .value (.relationVal rel)
    | _ => .skip "unsupported_type" [] (some pd.type)

/-- JS object assignment `o[k] = v` on an insertion-ordered association
list: replace in place when the key exists, append otherwise. -/
def setKey {α : Type} : List (String × α) → String → α → List (String × α)
  | [], k, v => [(k, v)]
  | (k0, v0) :: rest, k, v =>
    if k0 = k then (k0, v) :: rest else (k0, v0) :: setKey rest k v

/-- Skip report entry as stored by the build loop:
`skips[k] = reason === "unknown_option" ? {reason, available} : {reason, type}`. -/
structure SkipInfo where
  reason : String
  available : List String
  ty : Option String

/-- The skip entry the build loop stores for a given skip outcome. -/
def skipInfoOf (reason : String) (available : List String) (ty : Option String) : SkipInfo :=
  if reason = "unknown_option" then ⟨reason, available, none⟩ else ⟨reason, [], ty⟩

/-- Build loop of the upsert handler (src/server.js lines 1589-1599),
threading the `properties` and `skips` objects. -/
def buildAllAux (props : List (String × PropDef)) (idx : UsersIndex) :
    List (String × JSVal) → List (String × Payload) → List (String × SkipInfo) →
    Except (String × String) (List (String × Payload) × List (String × SkipInfo))
  | [], properties, skips => .ok (properties, skips)
  | (k, v) :: rest, properties, skips =>
    match buildProp props idx k v with
    | .error e => .error (e, k)
    | .skip r av ty => buildAllAux props idx rest properties (setKey skips k (skipInfoOf r av ty))
    | .value p => buildAllAux props idx rest (setKey properties k p) skips

/-- Runs the build loop over all fields: the first `built.error` aborts
with a 400, otherwise properties and skips are accumulated. -/
def buildAllProps (props : List (String × PropDef)) (idx : UsersIndex)
    (fields : List (String × JSVal)) :
    Except (String × String) (List (String × Payload) × List (String × SkipInfo)) :=
  buildAllAux props idx fields [] []

/-- Process configuration: the `ROADMAP_DATABASE_ID` and
`TASK_TRACKER_DATABASE_ID` environment values (empty string when unset,
matching JS falsiness). -/
structure Env where
  roadmapId : String
  taskTrackerId : String

/-- Remote collaborators of the upsert handler, given as oracles:
`resolve` stands for `resolveTitleToId` (db id, title text to optional
page id), `suggestSchema`/`suggestPages` for the suggestion-time schema
fetch and page-size-10 query (a page is its property map from name to
title rich-text plain texts), and `createdId` for the id the create call
returns. -/
structure Oracle where
  resolve : String → String → Option String
  suggestSchema : String → List (String × PropDef)
  suggestPages : String → List (List (String × List String))
  createdId : String

/-- One step of the `relationTargets` accumulation (src/server.js lines
1375-1385) over a schema entry. -/
def relationTargetsStep (env : Env) (acc : List (String × String))
    (kv : String × PropDef) : List (String × String) :=
  let k := kv.1
  let v := kv.2
  if v.type == "relation" then
    if v.relationDatabaseId != "" then setKey acc k v.relationDatabaseId
    else
      let name := lowerStr k
      if name == "roadmap" && env.roadmapId != "" then setKey acc k env.roadmapId
      else if env.taskTrackerId != "" &&
          (name == "parent task" || name == "parent" || name == "sub tasks"
            || name == "subtasks" || name == "children") then
        setKey acc k env.taskTrackerId
      else acc
  else acc

/-- The `relationTargets` map (src/server.js lines 1374-1385): relation
properties with an explicit target database, plus name-based fallbacks for
the roadmap and tasks self-relations. -/
def relationTargets (env : Env) (props : List (String × PropDef)) : List (String × String) :=
  props.foldl (relationTargetsStep env) []

/-- Per-field relation normalization by title (src/server.js lines
1386-1411): a title string (or array of titles / `{id}` objects) aimed at
the roadmap or tasks database is resolved to page ids when possible. -/
def normalizeField (env : Env) (oracle : Oracle) (relTargets : List (String × String))
    (k : String) (v : JSVal) : JSVal :=
  match relTargets.lookup k with
  | none => v
  | some targetDb =>
    let isRoadmap := env.roadmapId != "" && normId targetDb == normId env.roadmapId
    let isTasks := env.taskTrackerId != "" && normId targetDb == normId env.taskTrackerId
    if isRoadmap || isTasks then
      let lookupDb := if isRoadmap then env.roadmapId else env.taskTrackerId
      match v with
      | .str s =>
        match oracle.resolve lookupDb s with
        | some id => if id != "" then .arr [.str id] else v
        | none => v
      | .arr items =>
        let out := items.filterMap (fun item =>
          match item with
          | .str s =>
            (oracle.resolve lookupDb s).bind (fun id => if id != "" then some (JSVal.str id) else none)
          | it =>
            match jsField it "id" with
            | some idv => if idv.truthy then some idv else none
            | none => none)
        if !out.isEmpty then .arr out else v
      | _ => v
    else v

/-- The normalized field map handed to the unresolved check and to the
build loop. -/
def normalizeFields (env : Env) (oracle : Oracle) (props : List (String × PropDef))
    (fields : List (String × JSVal)) : List (String × JSVal) :=
  fields.map (fun kv => (kv.1, normalizeField env oracle (relationTargets env props) kv.1 kv.2))

/-- Unresolved-title report (src/server.js lines 1415-1429): a
roadmap/tasks relation field still holding a non-uuid string after
normalization is collected as `{property, value}`. -/
def unresolvedOf (env : Env) (relTargets : List (String × String))
    (normalizedFields : List (String × JSVal)) : List (String × JSVal) :=
  normalizedFields.foldl (fun acc kv =>
    let k := kv.1
    let v := kv.2
    let targetDb? := relTargets.lookup k
    let isRoadmap :=
      (match targetDb? with
       | some t => t != "" && env.roadmapId != "" && normId t == normId env.roadmapId
       | none => false) || lowerStr k == "roadmap"
    let isTasks :=
      match targetDb? with
      | some t => t != "" && env.taskTrackerId != "" && normId t == normId env.taskTrackerId
      | none => false
    if isRoadmap || isTasks then
      let vals := match v with | .arr xs => xs | x => [x]
      let bad := vals.filter (fun x =>
        match x with
        | .str s => !isUuidStr (toDashedUuid s)
        | _ => false)
      if !bad.isEmpty then acc ++ [(k, v)] else acc
    else acc) []

/-- The database sampled for suggestions on a relation failure:
`ROADMAP_DATABASE_ID || TASK_TRACKER_DATABASE_ID`. -/
def dbForSuggest (env : Env) : String :=
  if env.roadmapId != "" then env.roadmapId else env.taskTrackerId

/-- Name of the first title-kind property of a schema, if any. -/
def titlePropNameOf (props : List (String × PropDef)) : Option String :=
  (props.find? (fun kv => kv.2.type == "title")).map (fun kv => kv.1)

/-- Suggestion titles on a relation failure (src/server.js lines
1432-1446): from a page-size-10 query of the suggestion database, join
each page's title rich text and drop empty results. -/
def suggestTitles (env : Env) (oracle : Oracle) : List String :=
  let db := dbForSuggest env
  if db == "" then []
  else
    match titlePropNameOf (oracle.suggestSchema db) with
    | none => []
    | some tp =>
      ((oracle.suggestPages db).map (fun pg => joinStrs ((pg.lookup tp).getD []))).filter
        (fun s => !emptyStr s)

/-- Remote calls the orchestrator issues after the initial schema fetch
(resolver-internal reads are behind the `resolve` oracle). -/
inductive RemoteCall where
  | fetchSchema (dbId : String)
  | queryPages (dbId : String) (pageSize : Nat)
  | createPage (dbId : String) (properties : List (String × Payload))
  | updatePage (pageId : String) (properties : List (String × Payload))

/-- Whether a remote call writes record state (POST /v1/pages or PATCH
/v1/pages/:id). -/
def RemoteCall.isWrite : RemoteCall → Bool
  | .createPage _ _ => true
  | .updatePage _ _ => true
  | _ => false

/-- Remote reads issued by the suggestion block for a given environment:
the suggestion schema fetch and, when a title property exists, the
page-size-10 query. -/
def suggestCalls (env : Env) (oracle : Oracle) : List RemoteCall :=
  let db := dbForSuggest env
  if db == "" then []
  else
    match titlePropNameOf (oracle.suggestSchema db) with
    | none => [.fetchSchema db]
    | some _ => [.fetchSchema db, .queryPages db 10]

/-- Terminal outcomes of the upsert handler that the claims are about.
`titleRequiredOnCreate` carries the property name placed in the hint
(`titlePropName || "title"`). -/
inductive UpsertResult where
  | relationNotFound (unresolved : List (String × JSVal)) (suggestions : List String)
  | fieldError (e : String) (field : String)
  | titleRequiredOnCreate (titlePropHint : String)
  | success (mode : String) (pageId : String) (skipped : List (String × SkipInfo))

/-- Truthiness of the optional `title` of the request body. -/
def titleTruthy : Option JSVal → Bool
  | some t => t.truthy
  | none => false

/-- Shallow embedding of the upsert handler core (src/server.js lines
1371-1640), from relation normalization to the single create or update
write call; paired with the trace of remote calls issued after the schema
fetch. -/
def upsertCore (env : Env) (oracle : Oracle) (idx : UsersIndex) (dbId : String)
    (props : List (String × PropDef)) (pageId : Option String) (title : Option JSVal)
    (fields : List (String × JSVal)) : UpsertResult × List RemoteCall :=
  let relTargets := relationTargets env props
  let normalizedFields := normalizeFields env oracle props fields
  let unresolved := unresolvedOf env relTargets normalizedFields
  if !unresolved.isEmpty then
    (.relationNotFound unresolved (suggestTitles env oracle), suggestCalls env oracle)
  else
    match buildAllProps props idx normalizedFields with
    | .error ek => (.fieldError ek.1 ek.2, [])
    | .ok built =>
      let properties := built.1
      let skips := built.2
      match pageId with
      | some pid => (.success "update" pid skips, [.updatePage pid properties])
      | none =>
        let titlePropName := titlePropNameOf props
        if !titleTruthy title && !(properties.lookup (titlePropName.getD "null")).isSome then
          (.titleRequiredOnCreate (titlePropName.getD "title"), [])
        else
          let properties :=
            match title, titlePropName with
            | some t, some tp =>
              if t.truthy && !(properties.lookup tp).isSome then
                setKey properties tp (.titleVal (jsString t))
              else properties
            | _, _ => properties
          (.success "create" oracle.createdId skips, [.createPage dbId properties])

/-- Outcome of one underlying axios request: success, or a thrown error
carrying `err?.response?.status` (none models a transport error with no
response). -/
inductive CallOutcome where
  | ok (v : Nat)
  | err (status : Option Nat)

/-- Error finally raised by `doNotion`: the last thrown HTTP error, or the
`Unknown Notion error` fallback. -/
inductive NotionErr where
  | http (status : Option Nat)
  | unknown

/-- Result of a `doNotion` call together with how many requests were
issued and the sleep durations between attempts. -/
structure DoOutcome where
  result : Except NotionErr Nat
  calls : Nat
  waits : List Nat

/-- Statuses `doNotion` retries: 409 and 429. -/
def retryable : Option Nat → Bool
  | some s => s == 409 || s == 429
  | none => false

/-- Retry loop of `doNotion` (src/server.js lines 856-876): `fuel` is
`max - attempt`, `attempt` is the current attempt index, `last` the last
retried error, `outcomes i` the response to the i-th request, and
`jitter i` the value of `Math.floor(Math.random() * 100)` at attempt i. -/
def doNotionGo (outcomes : Nat → CallOutcome) (jitter : Nat → Nat) :
    Nat → Nat → Option (Option Nat) → DoOutcome
  | 0, _, last =>
    ⟨.error (match last with | some s => .http s | none => .unknown), 0, []⟩
  | fuel + 1, attempt, _ =>
    match outcomes attempt with
    | .ok v => ⟨.ok v, 1, []⟩
    | .err s =>
      if retryable s then
        let w := min 2000 (250 * 2 ^ attempt) + jitter attempt
        let rest := doNotionGo outcomes jitter fuel (attempt + 1) (some s)
        ⟨rest.result, rest.calls + 1, w :: rest.waits⟩
      else ⟨.error (.http s), 1, []⟩

/-- `doNotion` with `max = 5` attempts, starting at attempt 0 with no
last error. -/
def doNotion (outcomes : Nat → CallOutcome) (jitter : Nat → Nat) : DoOutcome :=
  doNotionGo outcomes jitter 5 0 none

/-- A page as seen by `resolveTitleToId`: its id, its parent database id
(`p?.parent?.database_id`) and its properties as title rich-text plain
texts per property name. -/
structure Page where
  id : String
  parentDatabaseId : Option String
  properties : List (String × List String)

/-- Remote store as seen by the resolver; every call can fail (a thrown
`doNotion` error is `.error`). `queryEquals`/`queryContains` take the
title property name, the search text and the page size; `search` is the
global search, already sorted most-recently-edited first by the remote. -/
structure ResolverStore where
  fetchSchema : Except Unit (List (String × PropDef))
  queryEquals : String → String → Nat → Except Unit (List Page)
  queryContains : String → String → Nat → Except Unit (List Page)
  search : String → Except Unit (List Page)

/-- Remote calls the resolver issues. -/
inductive RCall where
  | schemaFetch
  | equalsQuery (pageSize : Nat)
  | containsQuery (pageSize : Nat)
  | globalSearch (sortTimestamp : String) (sortDirection : String)

/-- Joined, trimmed plain text of a candidate page's title property. -/
def pageTitleText (p : Page) (titleProp : String) : String :=
  trimStr (joinStrs ((p.properties.lookup titleProp).getD []))

/-- Parent-database filter of the global fallback:
`pid && normId(pid) === normId(dbId)`. -/
def parentMatches (dbId : String) (p : Page) : Bool :=
  match p.parentDatabaseId with
  | some pid => pid != "" && normId pid == normId dbId
  | none => false

/-- Case-insensitive title comparison of the global fallback. -/
def titleMatches (titleProp titleStr : String) (p : Page) : Bool :=
  lowerStr (pageTitleText p titleProp) == lowerStr titleStr

/-- Final `return match?.id || null` of the resolver. -/
def pageIdOpt (m : Page) : Option String :=
  if emptyStr m.id then none else some m.id

/-- Body of `resolveTitleToId` (src/server.js lines 879-929) before its
surrounding try/catch, paired with the trace of remote calls; `.error`
models an exception escaping the body. -/
def resolveCore (store : ResolverStore) (dbId : String) (titleStr : String) :
    Except Unit (Option String) × List RCall :=
  match store.fetchSchema with
  | .error e => (.error e, [.schemaFetch])
  | .ok props =>
    match titlePropNameOf props with
    | none => (.ok none, [.schemaFetch])
    | some titleProp =>
      match store.queryEquals titleProp titleStr 1 with
      | .error e => (.error e, [.schemaFetch, .equalsQuery 1])
      | .ok eqResults =>
        match eqResults.head? with
        | some m => (.ok (pageIdOpt m), [.schemaFetch, .equalsQuery 1])
        | none =>
          match store.queryContains titleProp titleStr 5 with
          | .error e => (.error e, [.schemaFetch, .equalsQuery 1, .containsQuery 5])
          | .ok subResults =>
            match subResults.head? with
            | some m => (.ok (pageIdOpt m), [.schemaFetch, .equalsQuery 1, .containsQuery 5])
            | none =>
              let trace := [RCall.schemaFetch, .equalsQuery 1, .containsQuery 5,
                .globalSearch "last_edited_time" "descending"]
              match store.search titleStr with
              | .error e => (.error e, trace)
              | .ok results =>
                let candidates := results.filter (parentMatches dbId)
                match candidates.find? (titleMatches titleProp titleStr) with
                | some m => (.ok (pageIdOpt m), trace)
                | none =>
                  match candidates.head? with
                  | some m => (.ok (pageIdOpt m), trace)
                  | none => (.ok none, trace)

/-- `resolveTitleToId`: the body with its catch-all, which turns any
escaping error into null. -/
def resolveTitleToId (store : ResolverStore) (dbId : String) (titleStr : String) :
    Option String :=
  match (resolveCore store dbId titleStr).1 with
  | .ok r => r
  | .error _ => none

/-- Remote record state: the page's current property values. A Notion
update (PATCH with a `properties` object) assigns each supplied property
its new value and leaves the others unchanged. -/
def applyUpdate (st : List (String × Payload)) (ps : List (String × Payload)) :
    List (String × Payload) :=
  ps.foldl (fun acc kv => setKey acc kv.1 kv.2) st

theorem lookup_cons_eq {α : Type} (k k0 : String) (v0 : α) (t : List (String × α)) :
    List.lookup k ((k0, v0) :: t) = if k = k0 then some v0 else t.lookup k := by
  by_cases h : k = k0
  · subst h; simp [List.lookup]
  · have hb : (k == k0) = false := beq_eq_false_iff_ne.mpr h
    simp [List.lookup, hb, h]

theorem lookup_setKey_self {α : Type} (l : List (String × α)) (k : String) (v : α) :
    (setKey l k v).lookup k = some v := by
  induction l with
  | nil => simp [setKey, lookup_cons_eq]
  | cons h t ih =>
    obtain ⟨k0, v0⟩ := h
    by_cases hk : k0 = k
    · subst hk; simp [setKey, lookup_cons_eq]
    · simp [setKey, hk, lookup_cons_eq, ih, Ne.symm hk]

theorem lookup_setKey_ne {α : Type} (l : List (String × α)) (k k' : String) (v : α)
    (h : k' ≠ k) : (setKey l k v).lookup k' = l.lookup k' := by
  induction l with
  | nil => simp [setKey, lookup_cons_eq, h]
  | cons hd t ih =>
    obtain ⟨k0, v0⟩ := hd
    by_cases hk : k0 = k
    · subst hk; simp [setKey, lookup_cons_eq, h]
    · by_cases hk' : k' = k0
      · subst hk'; simp [setKey, hk, lookup_cons_eq]
      · simp [setKey, hk, lookup_cons_eq, hk', ih]

theorem setKey_of_lookup_eq {α : Type} (l : List (String × α)) (k : String) (v : α)
    (h : l.lookup k = some v) : setKey l k v = l := by
  induction l with
  | nil => simp [List.lookup] at h
  | cons hd t ih =>
    obtain ⟨k0, v0⟩ := hd
    rw [lookup_cons_eq] at h
    by_cases hk : k = k0
    · subst hk
      simp at h
      simp [setKey, h]
    · simp [hk] at h
      simp [setKey, Ne.symm hk, ih h]

theorem lookup_applyUpdate_notMem (ps : List (String × Payload)) (st : List (String × Payload))
    (k : String) (h : k ∉ ps.map Prod.fst) :
    (applyUpdate st ps).lookup k = st.lookup k := by
  induction ps generalizing st with
  | nil => rfl
  | cons hd t ih =>
    obtain ⟨k0, v0⟩ := hd
    simp only [List.map_cons, List.mem_cons] at h
    push_neg at h
    have := ih (setKey st k0 v0) h.2
    simpa [applyUpdate, lookup_setKey_ne _ _ _ _ h.1] using this

/-- Applying the same property assignment twice leaves the record exactly
as applying it once, provided the assignment has no duplicate keys (a JS
object never does). -/
theorem applyUpdate_idem (ps : List (String × Payload)) (st : List (String × Payload))
    (hnd : (ps.map Prod.fst).Nodup) :
    applyUpdate (applyUpdate st ps) ps = applyUpdate st ps := by
  induction ps generalizing st with
  | nil => rfl
  | cons hd t ih =>
    obtain ⟨k, v⟩ := hd
    simp only [List.map_cons, List.nodup_cons] at hnd
    have hk : k ∉ t.map Prod.fst := hnd.1
    have hL : (applyUpdate (setKey st k v) t).lookup k = some v := by
      rw [lookup_applyUpdate_notMem t _ k hk]
      exact lookup_setKey_self st k v
    show applyUpdate (setKey (applyUpdate (setKey st k v) t) k v) t = applyUpdate (setKey st k v) t
    rw [setKey_of_lookup_eq _ _ _ hL]
    exact ih (setKey st k v) hnd.2

theorem lookup_mem {α : Type} {l : List (String × α)} {k : String} {v : α}
    (h : l.lookup k = some v) : (k, v) ∈ l := by
  induction l with
  | nil => simp [List.lookup] at h
  | cons hd t ih =>
    obtain ⟨k0, v0⟩ := hd
    rw [lookup_cons_eq] at h
    by_cases hk : k = k0
    · subst hk
      simp at h
      subst h
      exact List.mem_cons_self _ _
    · simp [hk] at h
      exact List.mem_cons_of_mem _ (ih h)

theorem lookup_of_mem_nodup {α : Type} {l : List (String × α)} {k : String} {v : α}
    (hnd : (l.map Prod.fst).Nodup) (h : (k, v) ∈ l) : l.lookup k = some v := by
  induction l with
  | nil => simp at h
  | cons hd t ih =>
    obtain ⟨k0, v0⟩ := hd
    simp only [List.map_cons, List.nodup_cons] at hnd
    rcases List.mem_cons.mp h with h1 | h1
    · obtain ⟨hk, hv⟩ := Prod.mk.injEq .. ▸ h1
      subst hk; subst hv
      simp [lookup_cons_eq]
    · have hk : k ≠ k0 := by
        intro he
        subst he
        exact hnd.1 (List.mem_map_of_mem Prod.fst h1)
      simp [lookup_cons_eq, hk, ih hnd.2 h1]

/-- The only hard error `buildProp` can produce is `title_required`, and
only for a title-kind property with a falsy value. -/
theorem buildProp_error_inv {props : List (String × PropDef)} {idx : UsersIndex}
    {k : String} {v : JSVal} {e : String}
    (h : buildProp props idx k v = .error e) :
    e = "title_required" ∧
      ∃ pd, props.lookup k = some pd ∧ pd.type = "title" ∧ v.truthy = false := by
  unfold buildProp at h
  rcases hl : props.lookup k with _ | pd <;> rw [hl] at h
  · simp at h
  · have hsome : ∀ pd', (some pd = some pd') → pd = pd' := by intro pd' he; injection he
    split at h
    · next heq => exact absurd heq (by simp)
    · next pd' heq =>
      obtain rfl := hsome pd' heq
      split at h
      case h_1 ht =>
        split at h
        · next hv =>
          refine ⟨by injection h with h'; exact h'.symm, pd, rfl, ht, by simpa using hv⟩
        · simp at h
      all_goals try dsimp only [] at h
      all_goals first
        | exact BuildResult.noConfusion h
        | (split at h <;> first
            | exact BuildResult.noConfusion h
            | (split at h <;> exact BuildResult.noConfusion h))

theorem buildProp_title_falsy {props : List (String × PropDef)} (idx : UsersIndex)
    {k : String} {pd : PropDef} (v : JSVal)
    (hl : props.lookup k = some pd) (ht : pd.type = "title") (hv : v.truthy = false) :
    buildProp props idx k v = .error "title_required" := by
  unfold buildProp
  rw [hl]
  split
  · next heq => exact absurd heq (by simp)
  · next pd' heq =>
    injection heq with heq'
    subst heq'
    rw [ht]
    simp [hv]

theorem buildAllAux_error_src {props : List (String × PropDef)} {idx : UsersIndex} :
    ∀ (fields : List (String × JSVal)) (acc1 : List (String × Payload))
      (acc2 : List (String × SkipInfo)) (e k : String),
      buildAllAux props idx fields acc1 acc2 = .error (e, k) →
      ∃ v, (k, v) ∈ fields ∧ buildProp props idx k v = .error e := by
  intro fields
  induction fields with
  | nil => intro acc1 acc2 e k h; simp [buildAllAux] at h
  | cons hd rest ih =>
    intro acc1 acc2 e k h
    obtain ⟨k0, v0⟩ := hd
    rcases hb : buildProp props idx k0 v0 with p | ⟨r, av, ty⟩ | e0 <;>
      simp only [buildAllAux, hb] at h
    · obtain ⟨v, hmem, hbv⟩ := ih _ _ _ _ h
      exact ⟨v, List.mem_cons_of_mem _ hmem, hbv⟩
    · obtain ⟨v, hmem, hbv⟩ := ih _ _ _ _ h
      exact ⟨v, List.mem_cons_of_mem _ hmem, hbv⟩
    · obtain ⟨rfl, rfl⟩ := h
      exact ⟨v0, List.mem_cons_self _ _, hb⟩

theorem buildAllAux_ok_keysub {props : List (String × PropDef)} {idx : UsersIndex} :
    ∀ (fields : List (String × JSVal)) (acc1 : List (String × Payload))
      (acc2 : List (String × SkipInfo)) (ps : List (String × Payload))
      (sk : List (String × SkipInfo)),
      buildAllAux props idx fields acc1 acc2 = .ok (ps, sk) →
      ∀ k, (ps.lookup k).isSome = true →
        (acc1.lookup k).isSome = true ∨ k ∈ fields.map Prod.fst := by
  intro fields
  induction fields with
  | nil =>
    intro acc1 acc2 ps sk h k hk
    simp only [buildAllAux] at h
    obtain ⟨rfl, rfl⟩ := h
    exact Or.inl hk
  | cons hd rest ih =>
    intro acc1 acc2 ps sk h k hk
    obtain ⟨k0, v0⟩ := hd
    rcases hb : buildProp props idx k0 v0 with p | ⟨r, av, ty⟩ | e0 <;>
      simp only [buildAllAux, hb] at h
    · rcases ih _ _ _ _ h k hk with h1 | h1
      · by_cases hkk : k = k0
        · subst hkk; exact Or.inr (by simp)
        · rw [lookup_setKey_ne _ _ _ _ hkk] at h1
          exact Or.inl h1
      · exact Or.inr (by simp [h1])
    · rcases ih _ _ _ _ h k hk with h1 | h1
      · exact Or.inl h1
      · exact Or.inr (by simp [h1])
    · simp at h

theorem keys_setKey_sub {α : Type} (l : List (String × α)) (k a : String) (v : α)
    (h : a ∈ (setKey l k v).map Prod.fst) : a ∈ l.map Prod.fst ∨ a = k := by
  induction l with
  | nil => simpa [setKey] using h
  | cons hd t ih =>
    obtain ⟨k0, v0⟩ := hd
    by_cases hk : k0 = k
    · subst hk
      simp only [setKey, if_pos rfl] at h
      exact Or.inl (by simpa using h)
    · simp only [setKey, if_neg hk, List.map_cons, List.mem_cons] at h
      rcases h with h | h
      · exact Or.inl (by simp [h])
      · rcases ih h with h1 | h1
        · exact Or.inl (by simp [h1])
        · exact Or.inr h1

theorem nodup_keys_setKey {α : Type} (l : List (String × α)) (k : String) (v : α)
    (h : (l.map Prod.fst).Nodup) : ((setKey l k v).map Prod.fst).Nodup := by
  induction l with
  | nil => simp [setKey]
  | cons hd t ih =>
    obtain ⟨k0, v0⟩ := hd
    simp only [List.map_cons, List.nodup_cons] at h
    by_cases hk : k0 = k
    · subst hk
      simpa [setKey] using h
    · simp only [setKey, if_neg hk, List.map_cons, List.nodup_cons]
      refine ⟨fun hmem => ?_, ih h.2⟩
      rcases keys_setKey_sub t k k0 v hmem with h1 | h1
      · exact h.1 h1
      · exact hk h1

theorem buildAllAux_ok_nodup {props : List (String × PropDef)} {idx : UsersIndex} :
    ∀ (fields : List (String × JSVal)) (acc1 : List (String × Payload))
      (acc2 : List (String × SkipInfo)) (ps : List (String × Payload))
      (sk : List (String × SkipInfo)),
      (acc1.map Prod.fst).Nodup →
      buildAllAux props idx fields acc1 acc2 = .ok (ps, sk) →
      (ps.map Prod.fst).Nodup := by
  intro fields
  induction fields with
  | nil =>
    intro acc1 acc2 ps sk hnd h
    simp only [buildAllAux] at h
    obtain ⟨rfl, rfl⟩ := h
    exact hnd
  | cons hd rest ih =>
    intro acc1 acc2 ps sk hnd h
    obtain ⟨k0, v0⟩ := hd
    rcases hb : buildProp props idx k0 v0 with p | ⟨r, av, ty⟩ | e0 <;>
      simp only [buildAllAux, hb] at h
    · exact ih _ _ _ _ (nodup_keys_setKey _ _ _ hnd) h
    · exact ih _ _ _ _ hnd h
    · simp at h

theorem buildAllAux_lookup_frozen {props : List (String × PropDef)} {idx : UsersIndex} :
    ∀ (fields : List (String × JSVal)) (acc1 : List (String × Payload))
      (acc2 : List (String × SkipInfo)) (ps : List (String × Payload))
      (sk : List (String × SkipInfo)) (k : String),
      k ∉ fields.map Prod.fst →
      buildAllAux props idx fields acc1 acc2 = .ok (ps, sk) →
      ps.lookup k = acc1.lookup k ∧ sk.lookup k = acc2.lookup k := by
  intro fields
  induction fields with
  | nil =>
    intro acc1 acc2 ps sk k _ h
    simp only [buildAllAux] at h
    obtain ⟨rfl, rfl⟩ := h
    exact ⟨rfl, rfl⟩
  | cons hd rest ih =>
    intro acc1 acc2 ps sk k hk h
    obtain ⟨k0, v0⟩ := hd
    simp only [List.map_cons, List.mem_cons] at hk
    push_neg at hk
    rcases hb : buildProp props idx k0 v0 with p | ⟨r, av, ty⟩ | e0 <;>
      simp only [buildAllAux, hb] at h
    · obtain ⟨h1, h2⟩ := ih _ _ _ _ k hk.2 h
      exact ⟨by rw [h1, lookup_setKey_ne _ _ _ _ hk.1], h2⟩
    · obtain ⟨h1, h2⟩ := ih _ _ _ _ k hk.2 h
      exact ⟨h1, by rw [h2, lookup_setKey_ne _ _ _ _ hk.1]⟩
    · simp at h

theorem buildAllAux_mem_lookup {props : List (String × PropDef)} {idx : UsersIndex} :
    ∀ (fields : List (String × JSVal)) (acc1 : List (String × Payload))
      (acc2 : List (String × SkipInfo)) (ps : List (String × Payload))
      (sk : List (String × SkipInfo)),
      (fields.map Prod.fst).Nodup →
      buildAllAux props idx fields acc1 acc2 = .ok (ps, sk) →
      ∀ k v, (k, v) ∈ fields →
        (∀ p, buildProp props idx k v = .value p → ps.lookup k = some p) ∧
        (∀ r av ty, buildProp props idx k v = .skip r av ty →
          sk.lookup k = some (skipInfoOf r av ty)) := by
  intro fields
  induction fields with
  | nil => intro acc1 acc2 ps sk _ _ k v hmem; simp at hmem
  | cons hd rest ih =>
    intro acc1 acc2 ps sk hnd h k v hmem
    obtain ⟨k0, v0⟩ := hd
    simp only [List.map_cons, List.nodup_cons] at hnd
    rcases List.mem_cons.mp hmem with h1 | h1
    · obtain ⟨hk, hv2⟩ := Prod.mk.injEq .. ▸ h1
      subst hk
      subst hv2
      rcases hb : buildProp props idx k v with p | ⟨r, av, ty⟩ | e0 <;>
        simp only [buildAllAux, hb] at h
      · obtain ⟨h2, _⟩ := buildAllAux_lookup_frozen rest _ _ _ _ k hnd.1 h
        constructor
        · intro p' hp'
          injection hp' with hpe
          rw [h2, hpe, lookup_setKey_self]
        · intro r' av' ty' hskip
          exact absurd hskip (by simp)
      · obtain ⟨_, h3⟩ := buildAllAux_lookup_frozen rest _ _ _ _ k hnd.1 h
        constructor
        · intro p' hp'
          exact absurd hp' (by simp)
        · intro r' av' ty' hskip
          obtain ⟨rfl, rfl, rfl⟩ : r = r' ∧ av = av' ∧ ty = ty' := by
            injection hskip with a b c
            exact ⟨a, b, c⟩
          rw [h3, lookup_setKey_self]
      · simp at h
    · rcases hb : buildProp props idx k0 v0 with p | ⟨r, av, ty⟩ | e0 <;>
        simp only [buildAllAux, hb] at h
      · exact ih _ _ _ _ hnd.2 h k v h1
      · exact ih _ _ _ _ hnd.2 h k v h1
      · simp at h

theorem buildAllAux_error_of_title_falsy {props : List (String × PropDef)} {idx : UsersIndex} :
    ∀ (fields : List (String × JSVal)) (acc1 : List (String × Payload))
      (acc2 : List (String × SkipInfo)),
      (∃ k v pd, (k, v) ∈ fields ∧ props.lookup k = some pd ∧
        pd.type = "title" ∧ v.truthy = false) →
      ∃ kf, buildAllAux props idx fields acc1 acc2 = .error ("title_required", kf) := by
  intro fields
  induction fields with
  | nil => intro acc1 acc2 ⟨k, v, pd, hmem, _⟩; simp at hmem
  | cons hd rest ih =>
    intro acc1 acc2 ⟨k, v, pd, hmem, hl, ht, hv⟩
    obtain ⟨k0, v0⟩ := hd
    rcases hb : buildProp props idx k0 v0 with p | ⟨r, av, ty⟩ | e0
    · rcases List.mem_cons.mp hmem with h1 | h1
      · obtain ⟨hk, hv2⟩ := Prod.mk.injEq .. ▸ h1
        subst hk
        subst hv2
        rw [buildProp_title_falsy idx v hl ht hv] at hb
        exact absurd hb (by simp)
      · obtain ⟨kf, hkf⟩ := ih (setKey acc1 k0 p) acc2 ⟨k, v, pd, h1, hl, ht, hv⟩
        exact ⟨kf, by simp only [buildAllAux, hb]; exact hkf⟩
    · rcases List.mem_cons.mp hmem with h1 | h1
      · obtain ⟨hk, hv2⟩ := Prod.mk.injEq .. ▸ h1
        subst hk
        subst hv2
        rw [buildProp_title_falsy idx v hl ht hv] at hb
        exact absurd hb (by simp)
      · obtain ⟨kf, hkf⟩ := ih acc1 (setKey acc2 k0 (skipInfoOf r av ty)) ⟨k, v, pd, h1, hl, ht, hv⟩
        exact ⟨kf, by simp only [buildAllAux, hb]; exact hkf⟩
    · obtain ⟨e1, h1⟩ := buildProp_error_inv hb
      exact ⟨k0, by simp only [buildAllAux, hb, e1]⟩

theorem relationTargetsStep_cases (env : Env) (acc : List (String × String))
    (kv : String × PropDef) :
    relationTargetsStep env acc kv = acc ∨
      (kv.2.type = "relation" ∧ ∃ t, relationTargetsStep env acc kv = setKey acc kv.1 t) := by
  dsimp only [relationTargetsStep]
  split
  · next hrel =>
    have hr : kv.2.type = "relation" := by simpa using hrel
    split
    · exact Or.inr ⟨hr, _, rfl⟩
    · split
      · exact Or.inr ⟨hr, _, rfl⟩
      · split
        · exact Or.inr ⟨hr, _, rfl⟩
        · exact Or.inl rfl
  · exact Or.inl rfl

theorem relationTargets_aux (env : Env) :
    ∀ (l : List (String × PropDef)) (acc : List (String × String)) (k : String),
      ((l.foldl (relationTargetsStep env) acc).lookup k).isSome = true →
      (acc.lookup k).isSome = true ∨ ∃ pd, (k, pd) ∈ l ∧ pd.type = "relation" := by
  intro l
  induction l with
  | nil => intro acc k h; exact Or.inl h
  | cons hd rest ih =>
    intro acc k h
    rw [List.foldl_cons] at h
    rcases ih (relationTargetsStep env acc hd) k h with h1 | h1
    · rcases relationTargetsStep_cases env acc hd with h2 | ⟨hr, t, h2⟩
      · rw [h2] at h1
        exact Or.inl h1
      · rw [h2] at h1
        by_cases hkk : k = hd.1
        · subst hkk
          refine Or.inr ⟨hd.2, ?_, hr⟩
          have he : (hd.1, hd.2) = hd := rfl
          rw [he]
          exact List.mem_cons_self _ _
        · rw [lookup_setKey_ne _ _ _ _ hkk] at h1
          exact Or.inl h1
    · obtain ⟨pd, hmem, hty⟩ := h1
      exact Or.inr ⟨pd, List.mem_cons_of_mem _ hmem, hty⟩

/-- A key of `relationTargets` always names a relation-kind schema entry. -/
theorem relationTargets_lookup (env : Env) (props : List (String × PropDef)) (k : String)
    (h : ((relationTargets env props).lookup k).isSome = true) :
    ∃ pd, (k, pd) ∈ props ∧ pd.type = "relation" := by
  rcases relationTargets_aux env props [] k h with h1 | h1
  · simp [List.lookup] at h1
  · exact h1

theorem normalizeField_no_target (env : Env) (oracle : Oracle)
    (relTargets : List (String × String)) (k : String) (v : JSVal)
    (h : relTargets.lookup k = none) :
    normalizeField env oracle relTargets k v = v := by
  unfold normalizeField
  rw [h]

/-- Relation normalization never rewrites a field whose schema entry is
not relation-kind (in particular a title field). -/
theorem normalizeField_non_relation (env : Env) (oracle : Oracle)
    (props : List (String × PropDef)) {k : String} {pd : PropDef} (v : JSVal)
    (hnd : (props.map Prod.fst).Nodup) (hl : props.lookup k = some pd)
    (ht : pd.type ≠ "relation") :
    normalizeField env oracle (relationTargets env props) k v = v := by
  apply normalizeField_no_target
  rcases htg : (relationTargets env props).lookup k with _ | t
  · rfl
  · exfalso
    have hs : ((relationTargets env props).lookup k).isSome = true := by rw [htg]; rfl
    obtain ⟨pd', hmem, hty⟩ := relationTargets_lookup env props k hs
    have hl' := lookup_of_mem_nodup hnd hmem
    rw [hl] at hl'
    injection hl' with he
    exact ht (he ▸ hty)

theorem normalizeFields_keys (env : Env) (oracle : Oracle)
    (props : List (String × PropDef)) (fields : List (String × JSVal)) :
    (normalizeFields env oracle props fields).map Prod.fst = fields.map Prod.fst := by
  unfold normalizeFields
  rw [List.map_map]
  rfl

theorem normalizeFields_mem (env : Env) (oracle : Oracle) (props : List (String × PropDef))
    {fields : List (String × JSVal)} {k : String} {v : JSVal} (h : (k, v) ∈ fields) :
    (k, normalizeField env oracle (relationTargets env props) k v) ∈
      normalizeFields env oracle props fields :=
  List.mem_map_of_mem _ h

/-- Modelled from the spec (section 4.3 "accepts either an ISO date
string"): a minimal ISO-8601 date shape `YYYY-MM-DD` on the first ten
characters. The source has no such check; this definition only serves to
exhibit a non-ISO string the builder nevertheless applies. -/
def looksLikeIsoDate (s : String) : Bool :=
  match splitChar '-' (takeStr s 10) with
  | [y, m, d] =>
    lengthStr y == 4 && lengthStr m == 2 && lengthStr d == 2
      && allChars y Char.isDigit && allChars m Char.isDigit && allChars d Char.isDigit
  | _ => false

/-- Claim C1, counterexample: matching is case-insensitive, but the
applied payload carries the caller's raw casing, not the schema's
canonical option name: value "OPEN" against options ["Open"] is applied
as select name "OPEN", which differs from the canonical "Open". -/
theorem c1_counterexample :
    buildProp [("Status", { type := "select", options := ["Open"] })] ⟨[]⟩ "Status"
        (.str "OPEN") = .value (.selectVal "OPEN")
    ∧ "OPEN" ≠ "Open" :=
  ⟨rfl, by decide⟩

/-- Claim C1 as amended: for select and status kinds the raw value is
matched case-insensitively against the schema options; a match is applied
with the caller's own string (`String(value)`), and a mismatch is skipped
as unknown_option with the full option list attached. -/
theorem c1_select_status (k : String) (opts : List String) (idx : UsersIndex) (v : JSVal) :
    (if opts.any (fun o => lowerStr o == lowerStr (jsString v)) then
        buildProp [(k, { type := "select", options := opts })] idx k v
          = .value (.selectVal (jsString v))
      else
        buildProp [(k, { type := "select", options := opts })] idx k v
          = .skip "unknown_option" opts none)
    ∧ (if opts.any (fun o => lowerStr o == lowerStr (jsString v)) then
        buildProp [(k, { type := "status", options := opts })] idx k v
          = .value (.statusVal (jsString v))
      else
        buildProp [(k, { type := "status", options := opts })] idx k v
          = .skip "unknown_option" opts none) := by
  constructor <;>
  · by_cases h : opts.any (fun o => lowerStr o == lowerStr (jsString v))
    · rw [if_pos h]
      unfold buildProp
      rw [lookup_cons_eq]
      simp [h]
    · rw [if_neg h]
      unfold buildProp
      rw [lookup_cons_eq]
      simp [h]

/-- Witness for c1_select_status at value "OPEN" against options
["Open"]. -/
theorem c1_select_status_witness :
    buildProp [("Status", { type := "select", options := ["Open"] })] ⟨[]⟩ "Status"
        (.str "OPEN") = .value (.selectVal "OPEN") := by
  have h := (c1_select_status "Status" ["Open"] ⟨[]⟩ (.str "OPEN")).1
  rw [if_pos (by decide)] at h
  exact h

/-- Claim C7, counterexample: a clearly non-ISO string is applied as a
date start value rather than skipped as invalid_date. -/
theorem c7_counterexample :
    buildProp [("When", { type := "date" })] ⟨[]⟩ "When" (.str "not a date!!")
        = .value (.dateVal (some (.str "not a date!!")) none none)
    ∧ looksLikeIsoDate "not a date!!" = false :=
  ⟨rfl, by decide⟩

/-- Claim C7 as amended: the date builder applies ANY string (no ISO
validation) as the start value, applies an object carrying a truthy start
or end with its start/end/time_zone fields, and skips anything else as
invalid_date. -/
theorem c7_date (k : String) (idx : UsersIndex) (v : JSVal) :
    (∀ s, v = .str s →
        buildProp [(k, { type := "date" })] idx k v
          = .value (.dateVal (some (.str s)) none none))
    ∧ ((∀ s, v ≠ .str s) →
        (v.truthy && (truthyOpt (jsField v "start") || truthyOpt (jsField v "end"))) = true →
        buildProp [(k, { type := "date" })] idx k v
          = .value (.dateVal (jsField v "start") (jsField v "end") (jsField v "time_zone")))
    ∧ ((∀ s, v ≠ .str s) →
        (v.truthy && (truthyOpt (jsField v "start") || truthyOpt (jsField v "end"))) = false →
        buildProp [(k, { type := "date" })] idx k v = .skip "invalid_date" [] none) := by
  refine ⟨?_, ?_, ?_⟩
  · intro s hs
    subst hs
    unfold buildProp
    rw [lookup_cons_eq]
    simp
  · intro hns hc
    unfold buildProp
    rw [lookup_cons_eq]
    cases v with
    | str s => exact absurd rfl (hns s)
    | num n => simp [JSVal.truthy, jsField, truthyOpt] at hc
    | boolean b => simp [JSVal.truthy, jsField, truthyOpt] at hc
    | null => simp [JSVal.truthy, jsField, truthyOpt] at hc
    | arr xs => simp [JSVal.truthy, jsField, truthyOpt] at hc
    | obj kvs => simp [hc]
  · intro hns hc
    unfold buildProp
    rw [lookup_cons_eq]
    cases v with
    | str s => exact absurd rfl (hns s)
    | num n => simp [hc]
    | boolean b => simp [hc]
    | null => simp [hc]
    | arr xs => simp [hc]
    | obj kvs => simp [hc]

/-- Witness for c7_date: an object with a start field is applied, and a
number is skipped as invalid_date. -/
theorem c7_date_witness :
    buildProp [("When", { type := "date" })] ⟨[]⟩ "When"
        (.obj [("start", .str "2024-01-01")])
      = .value (.dateVal (some (.str "2024-01-01")) none none)
    ∧ buildProp [("When", { type := "date" })] ⟨[]⟩ "When" (.num 5)
      = .skip "invalid_date" [] none := by
  constructor
  · have h := ((c7_date "When" ⟨[]⟩ (.obj [("start", .str "2024-01-01")])).2.1
      (by intro s h; cases h) (by decide))
    simpa using h
  · exact (c7_date "When" ⟨[]⟩ (.num 5)).2.2 (by intro s h; cases h) (by decide)

theorem doNotionGo_step_retry (o : Nat → CallOutcome) (j : Nat → Nat)
    (fuel a : Nat) (last : Option (Option Nat)) (s : Option Nat)
    (ho : o a = .err s) (hr : retryable s = true) :
    doNotionGo o j (fuel + 1) a last =
      ⟨(doNotionGo o j fuel (a + 1) (some s)).result,
       (doNotionGo o j fuel (a + 1) (some s)).calls + 1,
       (min 2000 (250 * 2 ^ a) + j a) :: (doNotionGo o j fuel (a + 1) (some s)).waits⟩ := by
  conv_lhs => simp only [doNotionGo]
  rw [ho]
  simp [hr]

theorem doNotionGo_calls_le (o : Nat → CallOutcome) (j : Nat → Nat) :
    ∀ (fuel a : Nat) (last : Option (Option Nat)),
      (doNotionGo o j fuel a last).calls ≤ fuel := by
  intro fuel
  induction fuel with
  | zero => intro a last; simp [doNotionGo]
  | succ n ih =>
    intro a last
    rcases ho : o a with v | st
    · simp [doNotionGo, ho]
    · cases hr : retryable st
      · simp [doNotionGo, ho, hr]
      · have hrest := ih (a + 1) (some st)
        simp [doNotionGo, ho, hr]
        omega

theorem doNotionGo_waits (o : Nat → CallOutcome) (j : Nat → Nat) :
    ∀ (fuel a : Nat) (last : Option (Option Nat)) (i w : Nat),
      (doNotionGo o j fuel a last).waits[i]? = some w →
      w = min 2000 (250 * 2 ^ (a + i)) + j (a + i) := by
  intro fuel
  induction fuel with
  | zero => intro a last i w h; simp [doNotionGo] at h
  | succ n ih =>
    intro a last i w h
    rcases ho : o a with v | st
    · simp [doNotionGo, ho] at h
    · cases hr : retryable st
      · simp [doNotionGo, ho, hr] at h
      · simp [doNotionGo, ho, hr] at h
        cases i with
        | zero =>
          simp at h
          simp only [Nat.add_zero]
          omega
        | succ i' =>
          simp at h
          have := ih (a + 1) (some st) i' w h
          have he : a + 1 + i' = a + (i' + 1) := by omega
          rw [he] at this
          exact this

theorem doNotionGo_immediate (o : Nat → CallOutcome) (j : Nat → Nat)
    (fuel a : Nat) (last : Option (Option Nat)) (s : Option Nat)
    (ho : o a = .err s) (hr : retryable s = false) :
    doNotionGo o j (fuel + 1) a last = ⟨.error (.http s), 1, []⟩ := by
  simp [doNotionGo, ho, hr]

theorem doNotionGo_exhaust (o : Nat → CallOutcome) (j : Nat → Nat) (s : Option Nat)
    (hr : retryable s = true) :
    ∀ (fuel a : Nat) (last : Option (Option Nat)), 0 < fuel →
      (∀ i, i < fuel → o (a + i) = .err s) →
      (doNotionGo o j fuel a last).result = .error (.http s)
        ∧ (doNotionGo o j fuel a last).calls = fuel := by
  intro fuel
  induction fuel with
  | zero => intro a last h0 _; exact absurd h0 (Nat.lt_irrefl 0)
  | succ n ih =>
    intro a last _ hall
    have ho : o a = .err s := by simpa using hall 0 (Nat.succ_pos n)
    cases n with
    | zero => simp [doNotionGo, ho, hr]
    | succ m =>
      have hall' : ∀ i, i < m + 1 → o (a + 1 + i) = .err s := by
        intro i hi
        have h1 := hall (i + 1) (by omega)
        have he : a + (i + 1) = a + 1 + i := by omega
        rw [← he]
        exact h1
      obtain ⟨h1, h2⟩ := ih (a + 1) (some s) (Nat.succ_pos m) hall'
      rw [doNotionGo_step_retry o j (m + 1) a last s ho hr]
      exact ⟨h1, by simp [h2]⟩

theorem doNotionGo_success (o : Nat → CallOutcome) (j : Nat → Nat) (s : Option Nat)
    (hr : retryable s = true) :
    ∀ (fuel k a : Nat) (last : Option (Option Nat)) (v : Nat), k < fuel →
      (∀ i, i < k → o (a + i) = .err s) → o (a + k) = .ok v →
      (doNotionGo o j fuel a last).result = .ok v
        ∧ (doNotionGo o j fuel a last).calls = k + 1 := by
  intro fuel
  induction fuel with
  | zero => intro k a last v hk _ _; exact absurd hk (Nat.not_lt_zero k)
  | succ n ih =>
    intro k a last v hk hpre hok
    cases k with
    | zero =>
      have ho : o a = .ok v := by simpa using hok
      simp [doNotionGo, ho]
    | succ m =>
      have ho : o a = .err s := by simpa using hpre 0 (Nat.succ_pos m)
      have hpre' : ∀ i, i < m → o (a + 1 + i) = .err s := by
        intro i hi
        have h1 := hpre (i + 1) (by omega)
        have he : a + (i + 1) = a + 1 + i := by omega
        rw [← he]
        exact h1
      have hok' : o (a + 1 + m) = .ok v := by
        have he : a + (m + 1) = a + 1 + m := by omega
        rw [← he]
        exact hok
      obtain ⟨h1, h2⟩ := ih m (a + 1) (some s) v (by omega) hpre' hok'
      constructor
      · simp [doNotionGo, ho, hr]
        exact h1
      · simp [doNotionGo, ho, hr]
        omega

/-- Claim C3: the remote caller retries only on 409/429, sleeps
min(2000, 250·2^attempt) plus the attempt's jitter between attempts (at
most 2099ms with jitter below 100), issues at most 5 requests, propagates
any other error immediately as-is, succeeds after 4 consecutive 429s
followed by a success, and surfaces the upstream 429 after 5 (or more)
consecutive 429s, the retry budget being exhausted. -/
theorem c3_doNotion_retry (outcomes : Nat → CallOutcome) (jitter : Nat → Nat) :
    (doNotion outcomes jitter).calls ≤ 5
    ∧ (∀ i w, (doNotion outcomes jitter).waits[i]? = some w →
        w = min 2000 (250 * 2 ^ i) + jitter i)
    ∧ ((∀ t, jitter t < 100) → ∀ w ∈ (doNotion outcomes jitter).waits, w < 2100)
    ∧ (∀ s, outcomes 0 = .err s → retryable s = false →
        doNotion outcomes jitter = ⟨.error (.http s), 1, []⟩)
    ∧ ((∀ i, i < 4 → outcomes i = .err (some 429)) → ∀ v, outcomes 4 = .ok v →
        (doNotion outcomes jitter).result = .ok v
          ∧ (doNotion outcomes jitter).calls = 5)
    ∧ ((∀ i, i < 5 → outcomes i = .err (some 429)) →
        (doNotion outcomes jitter).result = .error (.http (some 429))
          ∧ (doNotion outcomes jitter).calls = 5) := by
  refine ⟨?_, ?_, ?_, ?_, ?_, ?_⟩
  · exact doNotionGo_calls_le outcomes jitter 5 0 none
  · intro i w h
    simpa using doNotionGo_waits outcomes jitter 5 0 none i w h
  · intro hj w hw
    obtain ⟨i, hiw⟩ := List.mem_iff_getElem?.mp hw
    have hwi := doNotionGo_waits outcomes jitter 5 0 none i w (by simpa using hiw)
    simp only [Nat.zero_add] at hwi
    have hj' := hj i
    have hmin : min 2000 (250 * 2 ^ i) ≤ 2000 := Nat.min_le_left _ _
    omega
  · intro s h0 hnr
    exact doNotionGo_immediate outcomes jitter 4 0 none s h0 hnr
  · intro hpre v hok
    have h := doNotionGo_success outcomes jitter (some 429) rfl 5 4 0 none v
      (by omega) (by intro i hi; simpa using hpre i hi) (by simpa using hok)
    exact h
  · intro hall
    exact doNotionGo_exhaust outcomes jitter (some 429) rfl 5 0 none (by omega)
      (by intro i hi; simpa using hall i hi)

/-- Response sequence for the retry witness: four 429s then success. -/
def c3Outcomes : Nat → CallOutcome := fun i => if i < 4 then .err (some 429) else .ok 7

/-- Constant jitter for the retry witness. -/
def c3Jitter : Nat → Nat := fun _ => 25

/-- Witness for c3_doNotion_retry: four consecutive 429s followed by a
success complete successfully in exactly 5 requests. -/
theorem c3_doNotion_retry_witness :
    (doNotion c3Outcomes c3Jitter).result = .ok 7
      ∧ (doNotion c3Outcomes c3Jitter).calls = 5 :=
  (c3_doNotion_retry c3Outcomes c3Jitter).2.2.2.2.1
    (by intro i hi; interval_cases i <;> rfl) 7 rfl

/-- Claim C10: the resolver body's errors are all caught and returned as
null (first conjunct), while a normally returned result passes through
unchanged (second conjunct) — so an upstream failure during resolution is
indistinguishable from a genuine no-match null. -/
theorem c10_resolver_catches_all (store : ResolverStore) (dbId titleStr : String) :
    (∀ e, (resolveCore store dbId titleStr).1 = .error e →
      resolveTitleToId store dbId titleStr = none)
    ∧ (∀ r, (resolveCore store dbId titleStr).1 = .ok r →
      resolveTitleToId store dbId titleStr = r) := by
  constructor
  · intro e he
    unfold resolveTitleToId
    rw [he]
  · intro r hr
    unfold resolveTitleToId
    rw [hr]

/-- Store whose schema fetch fails, for the resolver-catch witness. -/
def c10Store : ResolverStore :=
  { fetchSchema := .error ()
  , queryEquals := fun _ _ _ => .ok []
  , queryContains := fun _ _ _ => .ok []
  , search := fun _ => .ok [] }

/-- Witness for c10_resolver_catches_all: a failing schema fetch yields
null. -/
theorem c10_resolver_catches_all_witness :
    resolveTitleToId c10Store "db" "Phase 2" = none :=
  (c10_resolver_catches_all c10Store "db" "Phase 2").1 () rfl

/-- Claim C6: the resolver's three tiers run in order, each only when the
previous yielded no match: no title property means null with only the
schema fetch; a non-empty equality query (page size 1) answers with its
first result and no further calls; an empty equality query falls to the
contains query (page size 5), whose first result answers; when both are
empty the global search runs (page-type results sorted by last edited
time, descending), its results are filtered to pages whose parent
database id matches the target under dash-stripped case-insensitive
normalization, a candidate whose title equals the query case-insensitively
is preferred, else the first candidate, else null. -/
theorem c6_resolver_tiers (store : ResolverStore) (dbId titleStr : String)
    (props : List (String × PropDef)) (hs : store.fetchSchema = .ok props) :
    (titlePropNameOf props = none →
      resolveTitleToId store dbId titleStr = none
        ∧ (resolveCore store dbId titleStr).2 = [.schemaFetch])
    ∧ (∀ tp, titlePropNameOf props = some tp →
        (∀ m rs, store.queryEquals tp titleStr 1 = .ok (m :: rs) →
          resolveTitleToId store dbId titleStr = pageIdOpt m
            ∧ (resolveCore store dbId titleStr).2 = [.schemaFetch, .equalsQuery 1])
        ∧ (store.queryEquals tp titleStr 1 = .ok [] →
            (∀ m rs, store.queryContains tp titleStr 5 = .ok (m :: rs) →
              resolveTitleToId store dbId titleStr = pageIdOpt m
                ∧ (resolveCore store dbId titleStr).2
                    = [.schemaFetch, .equalsQuery 1, .containsQuery 5])
            ∧ (store.queryContains tp titleStr 5 = .ok [] →
                ∀ pages, store.search titleStr = .ok pages →
                  (resolveCore store dbId titleStr).2
                      = [.schemaFetch, .equalsQuery 1, .containsQuery 5,
                         .globalSearch "last_edited_time" "descending"]
                  ∧ (∀ m, (pages.filter (parentMatches dbId)).find?
                        (titleMatches tp titleStr) = some m →
                      resolveTitleToId store dbId titleStr = pageIdOpt m)
                  ∧ ((pages.filter (parentMatches dbId)).find?
                        (titleMatches tp titleStr) = none →
                      (∀ m ms, pages.filter (parentMatches dbId) = m :: ms →
                        resolveTitleToId store dbId titleStr = pageIdOpt m)
                      ∧ (pages.filter (parentMatches dbId) = [] →
                          resolveTitleToId store dbId titleStr = none))))) := by
  constructor
  · intro hnone
    constructor
    · simp only [resolveTitleToId, resolveCore, hs, hnone]
    · simp only [resolveCore, hs, hnone]
  · intro tp htp
    refine ⟨?_, ?_⟩
    · intro m rs heq
      constructor
      · simp only [resolveTitleToId, resolveCore, hs, htp, heq, List.head?_cons, List.head?_nil]
      · simp only [resolveCore, hs, htp, heq, List.head?_cons, List.head?_nil]
    · intro heq
      refine ⟨?_, ?_⟩
      · intro m rs hcon
        constructor
        · simp only [resolveTitleToId, resolveCore, hs, htp, heq, hcon, List.head?_cons, List.head?_nil]
        · simp only [resolveCore, hs, htp, heq, hcon, List.head?_cons, List.head?_nil]
      · intro hcon pages hsearch
        refine ⟨?_, ?_, ?_⟩
        · simp only [resolveCore, hs, htp, heq, hcon, hsearch, List.head?_cons, List.head?_nil]
          split
          · rfl
          · split <;> rfl
        · intro m hfind
          simp only [resolveTitleToId, resolveCore, hs, htp, heq, hcon, hsearch,
            List.head?_cons, List.head?_nil, hfind]
        · intro hfind
          constructor
          · intro m ms hcand
            simp only [resolveTitleToId, resolveCore, hs, htp, heq, hcon, hsearch, hfind,
              List.head?_cons, List.head?_nil]
            simp only [hcand, List.head?_cons, List.head?_nil]
          · intro hcand
            simp only [resolveTitleToId, resolveCore, hs, htp, heq, hcon, hsearch, hfind,
              List.head?_cons, List.head?_nil]
            simp only [hcand, List.head?_cons, List.head?_nil]

/-- Store for the tiering witness: one page titled "Phase 2" found by the
exact-match tier. -/
def c6Store : ResolverStore :=
  { fetchSchema := .ok [("Name", { type := "title" })]
  , queryEquals := fun _ t _ =>
      .ok (if t == "Phase 2" then [⟨"p2", some "db", [("Name", ["Phase 2"])]⟩] else [])
  , queryContains := fun _ _ _ => .ok []
  , search := fun _ => .ok [] }

/-- Witness for c6_resolver_tiers: "Phase 2" resolves through tier 1
alone. -/
theorem c6_resolver_tiers_witness :
    resolveTitleToId c6Store "db" "Phase 2" = some "p2"
      ∧ (resolveCore c6Store "db" "Phase 2").2 = [.schemaFetch, .equalsQuery 1] := by
  have h := ((c6_resolver_tiers c6Store "db" "Phase 2" [("Name", { type := "title" })] rfl).2
    "Name" rfl).1 ⟨"p2", some "db", [("Name", ["Phase 2"])]⟩ [] rfl
  exact ⟨by rw [h.1]; rfl, h.2⟩

/-- Claim C8: under a fixed schema and users index the properties payload
is a pure function of the field map (two runs are definitionally the same
term), and applying the resulting update twice leaves the remote record
state exactly as applying it once. -/
theorem c8_idempotent_update (props : List (String × PropDef)) (idx : UsersIndex)
    (fields : List (String × JSVal)) (st ps : List (String × Payload))
    (sk : List (String × SkipInfo))
    (h : buildAllProps props idx fields = .ok (ps, sk)) :
    applyUpdate (applyUpdate st ps) ps = applyUpdate st ps := by
  have h' : buildAllAux props idx fields [] [] = .ok (ps, sk) := h
  have hnd : (ps.map Prod.fst).Nodup :=
    buildAllAux_ok_nodup fields [] [] ps sk (by simp) h'
  exact applyUpdate_idem ps st hnd

/-- Witness for c8_idempotent_update on a one-field update. -/
theorem c8_idempotent_update_witness :
    applyUpdate (applyUpdate [("Other", Payload.checkboxVal true)]
        [("URL", Payload.urlVal "http://x")]) [("URL", Payload.urlVal "http://x")]
      = applyUpdate [("Other", Payload.checkboxVal true)] [("URL", Payload.urlVal "http://x")] :=
  c8_idempotent_update [("URL", { type := "url" })] ⟨[]⟩ [("URL", .str "http://x")]
    [("Other", Payload.checkboxVal true)] [("URL", Payload.urlVal "http://x")] [] rfl

/-- Claim C4: the build loop errors only with title_required for a
title-kind field with a falsy value; absent such a field it succeeds; and
on success every field is either applied (its payload under its key) or
skipped (its reason under its key) — one invalid non-title field never
fails the request. -/
theorem c4_partial_failure (props : List (String × PropDef)) (idx : UsersIndex)
    (fields : List (String × JSVal)) :
    (∀ e k, buildAllProps props idx fields = .error (e, k) →
      e = "title_required" ∧ ∃ v pd, (k, v) ∈ fields ∧ props.lookup k = some pd ∧
        pd.type = "title" ∧ v.truthy = false)
    ∧ ((∀ k v pd, (k, v) ∈ fields → props.lookup k = some pd → pd.type = "title" →
          v.truthy = true) →
        ∃ ps sk, buildAllProps props idx fields = .ok (ps, sk))
    ∧ ((fields.map Prod.fst).Nodup →
        ∀ ps sk, buildAllProps props idx fields = .ok (ps, sk) →
        ∀ k v, (k, v) ∈ fields →
          (∀ p, buildProp props idx k v = .value p → ps.lookup k = some p) ∧
          (∀ r av ty, buildProp props idx k v = .skip r av ty →
            sk.lookup k = some (skipInfoOf r av ty))) := by
  refine ⟨?_, ?_, ?_⟩
  · intro e k h
    have h' : buildAllAux props idx fields [] [] = .error (e, k) := h
    obtain ⟨v, hmem, hbv⟩ := buildAllAux_error_src fields [] [] e k h'
    obtain ⟨he, pd, hl, ht, hv⟩ := buildProp_error_inv hbv
    exact ⟨he, v, pd, hmem, hl, ht, hv⟩
  · intro hno
    rcases hh : buildAllProps props idx fields with ⟨e, k⟩ | ⟨ps, sk⟩
    · have h' : buildAllAux props idx fields [] [] = .error (e, k) := hh
      obtain ⟨v, hmem, hbv⟩ := buildAllAux_error_src fields [] [] e k h'
      obtain ⟨_, pd, hl, ht, hv⟩ := buildProp_error_inv hbv
      rw [hno k v pd hmem hl ht] at hv
      cases hv
    · exact ⟨ps, sk, rfl⟩
  · intro hnd ps sk h k v hmem
    have h' : buildAllAux props idx fields [] [] = .ok (ps, sk) := h
    exact buildAllAux_mem_lookup fields [] [] ps sk hnd h' k v hmem

/-- Schema and fields for the partial-failure witness: a valid title plus
a select value matching no option. -/
def c4Props : List (String × PropDef) :=
  [("Name", { type := "title" }), ("Status", { type := "select", options := ["Open"] })]

def c4Fields : List (String × JSVal) := [("Name", .str "T"), ("Status", .str "Nope")]

/-- Witness for c4_partial_failure: the valid field is applied, the
invalid one lands in skipped with reason unknown_option, and the whole
build succeeds. -/
theorem c4_partial_failure_witness :
    [("Name", Payload.titleVal "T")].lookup "Name" = some (Payload.titleVal "T")
      ∧ [("Status", skipInfoOf "unknown_option" ["Open"] none)].lookup "Status"
          = some (skipInfoOf "unknown_option" ["Open"] none) := by
  have h3 := (c4_partial_failure c4Props ⟨[]⟩ c4Fields).2.2 (by decide)
    [("Name", Payload.titleVal "T")] [("Status", skipInfoOf "unknown_option" ["Open"] none)]
    rfl
  constructor
  · exact (h3 "Name" (.str "T") (List.mem_cons_self _ _)).1 (Payload.titleVal "T") rfl
  · exact (h3 "Status" (.str "Nope")
      (List.mem_cons_of_mem _ (List.mem_cons_self _ _))).2 "unknown_option" ["Open"] none rfl

/-- Claim C9: an update request (page id present) whose fields contain a
title-kind property with a falsy value fails whole with the 400
title_required field error before any write — the empty title is not
downgraded to a skip on update. -/
theorem c9_update_empty_title (env : Env) (oracle : Oracle) (idx : UsersIndex)
    (dbId : String) (props : List (String × PropDef)) (pid : String)
    (title : Option JSVal) (fields : List (String × JSVal))
    (k0 : String) (v0 : JSVal) (pd0 : PropDef)
    (hnd : (props.map Prod.fst).Nodup)
    (hmem : (k0, v0) ∈ fields)
    (hl : props.lookup k0 = some pd0)
    (ht : pd0.type = "title")
    (hv : v0.truthy = false)
    (hunres : unresolvedOf env (relationTargets env props)
        (normalizeFields env oracle props fields) = []) :
    ∃ kf, upsertCore env oracle idx dbId props (some pid) title fields
        = (.fieldError "title_required" kf, []) := by
  have hmem' : (k0, v0) ∈ normalizeFields env oracle props fields := by
    have hm := normalizeFields_mem env oracle props hmem
    rwa [normalizeField_non_relation env oracle props v0 hnd hl
      (by rw [ht]; decide)] at hm
  obtain ⟨kf, hkf⟩ := @buildAllAux_error_of_title_falsy props idx
    (normalizeFields env oracle props fields) [] [] ⟨k0, v0, pd0, hmem', hl, ht, hv⟩
  have hbp : buildAllProps props idx (normalizeFields env oracle props fields)
      = .error ("title_required", kf) := hkf
  refine ⟨kf, ?_⟩
  simp only [upsertCore, hunres, hbp]
  rfl

/-- Environment, oracle and schema for the update-empty-title witness. -/
def c9Env : Env := ⟨"", ""⟩

def c9Oracle : Oracle :=
  { resolve := fun _ _ => none
  , suggestSchema := fun _ => []
  , suggestPages := fun _ => []
  , createdId := "c1" }

def c9Props : List (String × PropDef) :=
  [("Name", { type := "title" }), ("URL", { type := "url" })]

/-- Witness for c9_update_empty_title: an update carrying an empty Name
fails with title_required and no write. -/
theorem c9_update_empty_title_witness :
    ∃ kf, upsertCore c9Env c9Oracle ⟨[]⟩ "db" c9Props (some "pid") none
        [("Name", .str "")] = (.fieldError "title_required" kf, []) :=
  c9_update_empty_title c9Env c9Oracle ⟨[]⟩ "db" c9Props "pid" none
    [("Name", .str "")] "Name" (.str "") { type := "title" }
    (by decide) (List.mem_cons_self _ _) rfl rfl rfl rfl

/-- Claim C5: a create request (no page id) with a falsy/absent title, no
title-kind field, and no unresolved relation aborts with
title_required_on_create naming the schema title property, and issues no
remote call at all (in particular no write). The schema is assumed to
have a title property, which the remote store guarantees. -/
theorem c5_title_required_on_create (env : Env) (oracle : Oracle) (idx : UsersIndex)
    (dbId : String) (props : List (String × PropDef)) (title : Option JSVal)
    (fields : List (String × JSVal)) (tp : String) (d : PropDef)
    (hnd : (props.map Prod.fst).Nodup)
    (hfind : props.find? (fun kv => kv.2.type == "title") = some (tp, d))
    (htt : titleTruthy title = false)
    (hnotitle : ∀ k v pd, (k, v) ∈ fields → props.lookup k = some pd →
      pd.type ≠ "title")
    (hunres : unresolvedOf env (relationTargets env props)
        (normalizeFields env oracle props fields) = []) :
    upsertCore env oracle idx dbId props none title fields
      = (.titleRequiredOnCreate tp, []) := by
  have htpn : titlePropNameOf props = some tp := by
    unfold titlePropNameOf
    rw [hfind]
    rfl
  have hkeys := normalizeFields_keys env oracle props fields
  rcases hb : buildAllProps props idx (normalizeFields env oracle props fields)
      with ⟨e, k⟩ | ⟨ps, sk⟩
  · exfalso
    have h' : buildAllAux props idx (normalizeFields env oracle props fields) [] []
        = .error (e, k) := hb
    obtain ⟨v, hmemn, hbv⟩ := buildAllAux_error_src _ [] [] e k h'
    obtain ⟨_, pd, hl, htpd, _⟩ := buildProp_error_inv hbv
    have hk : k ∈ fields.map Prod.fst := by
      rw [← hkeys]
      exact List.mem_map_of_mem Prod.fst hmemn
    obtain ⟨⟨k2, v2⟩, hmem2, hk2⟩ := List.mem_map.mp hk
    have hk2' : k2 = k := hk2
    exact hnotitle k v2 pd (hk2' ▸ hmem2) hl htpd
  · have hpsnone : ps.lookup tp = none := by
      rcases hlp : ps.lookup tp with _ | p
      · rfl
      · exfalso
        have h' : buildAllAux props idx (normalizeFields env oracle props fields) [] []
            = .ok (ps, sk) := hb
        have hsome : (ps.lookup tp).isSome = true := by rw [hlp]; rfl
        rcases buildAllAux_ok_keysub _ [] [] ps sk h' tp hsome with h1 | h1
        · simp [List.lookup] at h1
        · rw [hkeys] at h1
          obtain ⟨⟨k2, v2⟩, hmem2, hk2⟩ := List.mem_map.mp h1
          have hk2' : k2 = tp := hk2
          have hmemp : (tp, d) ∈ props := List.mem_of_find?_eq_some hfind
          have htd : d.type = "title" := by
            have hfs := List.find?_some hfind
            simpa using hfs
          exact hnotitle tp v2 d (hk2' ▸ hmem2) (lookup_of_mem_nodup hnd hmemp) htd
    simp only [upsertCore, hunres, hb, htpn, htt, Option.getD_some, hpsnone]
    rfl

/-- Schema and inputs for the missing-title witness. -/
def c5Props : List (String × PropDef) :=
  [("Name", { type := "title" }), ("URL", { type := "url" })]

/-- Witness for c5_title_required_on_create: a create with only a URL
field aborts naming the Name property, with an empty call trace. -/
theorem c5_title_required_on_create_witness :
    upsertCore c9Env c9Oracle ⟨[]⟩ "db" c5Props none none [("URL", .str "http://x")]
      = (.titleRequiredOnCreate "Name", []) := by
  refine c5_title_required_on_create c9Env c9Oracle ⟨[]⟩ "db" c5Props none
    [("URL", .str "http://x")] "Name" { type := "title" } (by decide) rfl rfl ?_ rfl
  intro k v pd hmem hl
  rcases List.mem_cons.mp hmem with h1 | h1
  · obtain ⟨hk, _⟩ := Prod.mk.injEq .. ▸ h1
    subst hk
    simp [c5Props, lookup_cons_eq] at hl
    rw [← hl]
    decide
  · simp at h1

/-- Claim C2 as amended: whenever a roadmap/tasks relation field still
holds a non-identifier string after title resolution, the upsert aborts
with the relation_title_not_found response carrying the unresolved fields
and suggestions; the suggestions are sampled (page size 10) from the
roadmap database when configured, else from the tasks database —
regardless of which relation failed — and no create or update write is
issued. -/
theorem c2_relation_abort (env : Env) (oracle : Oracle) (idx : UsersIndex)
    (dbId : String) (props : List (String × PropDef)) (pageId : Option String)
    (title : Option JSVal) (fields : List (String × JSVal))
    (hunres : unresolvedOf env (relationTargets env props)
        (normalizeFields env oracle props fields) ≠ []) :
    upsertCore env oracle idx dbId props pageId title fields
      = (.relationNotFound
           (unresolvedOf env (relationTargets env props)
             (normalizeFields env oracle props fields))
           (suggestTitles env oracle),
         suggestCalls env oracle)
    ∧ (∀ c ∈ suggestCalls env oracle, c.isWrite = false)
    ∧ (∀ db n, RemoteCall.queryPages db n ∈ suggestCalls env oracle →
        db = dbForSuggest env ∧ n = 10) := by
  refine ⟨?_, ?_, ?_⟩
  · rcases hu : unresolvedOf env (relationTargets env props)
        (normalizeFields env oracle props fields) with _ | ⟨a, l⟩
    · exact absurd hu hunres
    · simp only [upsertCore, hu]
      rfl
  · intro c hc
    revert hc
    unfold suggestCalls
    dsimp only
    split
    · intro hc
      simp at hc
    · split
      · intro hc
        simp only [List.mem_singleton] at hc
        subst hc
        rfl
      · intro hc
        simp only [List.mem_cons, List.mem_singleton, List.not_mem_nil, or_false] at hc
        rcases hc with rfl | rfl <;> rfl
  · intro db n hmem
    revert hmem
    unfold suggestCalls
    dsimp only
    split
    · intro hmem
      simp at hmem
    · split
      · intro hmem
        simp at hmem
      · intro hmem
        simp only [List.mem_cons, List.mem_singleton, List.not_mem_nil, or_false] at hmem
        rcases hmem with h1 | h1
        · cases h1
        · obtain ⟨rfl, rfl⟩ : db = dbForSuggest env ∧ n = 10 := by
            injection h1 with a b
            exact ⟨a, b⟩
          exact ⟨rfl, rfl⟩

/-- Environment for the relation-abort scenario: both the roadmap
database ("rrrr") and the tasks database ("tttt") are configured. -/
def c2Env : Env := ⟨"rrrr", "tttt"⟩

/-- Schema with a tasks self-relation field. -/
def c2Props : List (String × PropDef) :=
  [("Name", { type := "title" }),
   ("Parent task", { type := "relation", relationDatabaseId := "tttt" })]

/-- Oracle for the relation-abort scenario: nothing resolves, and the two
databases hold distinct sample titles. -/
def c2Oracle : Oracle :=
  { resolve := fun _ _ => none
  , suggestSchema := fun _ => [("Name", { type := "title" })]
  , suggestPages := fun db =>
      if db == "tttt" then [[("Name", ["Task A"])]] else [[("Name", ["Road X"])]]
  , createdId := "new1" }

/-- Fields with an unresolvable tasks-relation title. -/
def c2Fields : List (String × JSVal) := [("Parent task", .str "Ghost")]

/-- Claim C2, counterexample: the unresolved field is a tasks
self-relation (its target database is "tttt", whose sampled titles are
["Task A"]), yet the suggestions returned are ["Road X"], sampled from
the roadmap database — not from the relevant database. -/
theorem c2_counterexample :
    (upsertCore c2Env c2Oracle ⟨[]⟩ "tttt" c2Props none (some (.str "T")) c2Fields).1
      = .relationNotFound [("Parent task", .str "Ghost")] ["Road X"]
    ∧ (relationTargets c2Env c2Props).lookup "Parent task" = some "tttt"
    ∧ c2Oracle.suggestPages "tttt" = [[("Name", ["Task A"])]]
    ∧ (["Road X"] : List String) ≠ ["Task A"] :=
  ⟨rfl, rfl, rfl, by decide⟩

/-- Witness for c2_relation_abort on the concrete scenario: the abort
response carries the unresolved field and the suggestions, and the trace
holds only reads (the schema fetch and the page-size-10 query). -/
theorem c2_relation_abort_witness :
    upsertCore c2Env c2Oracle ⟨[]⟩ "tttt" c2Props none (some (.str "T")) c2Fields
      = (.relationNotFound [("Parent task", .str "Ghost")] ["Road X"],
         [.fetchSchema "rrrr", .queryPages "rrrr" 10])
    ∧ (∀ c ∈ suggestCalls c2Env c2Oracle, RemoteCall.isWrite c = false) := by
  have h := c2_relation_abort c2Env c2Oracle ⟨[]⟩ "tttt" c2Props none
    (some (.str "T")) c2Fields (by intro hcon; cases hcon)
  refine ⟨?_, h.2.1⟩
  have h1 := h.1
  rw [h1]
  rfl

end Sol
